import Mathlib

/-!
Verification development for the `rester` HTTP adapter library.

The development shallowly embeds the Go sources:
  * `pkg/errorsx` — the typed error wrapper `Errorx` and chain-aware
    extraction `As`;
  * `pkg/encoder` — the `jsonEncoder` / `xmlEncoder` objects and their
    package-level singletons;
  * `pkg/httpx` — handler options (`applyOptions`, the `With*` option
    constructors) and the request-handling body of `Handle`;
  * `internal/health` (per import path) — the `Health` use case.

Go `error` values are modelled by the inductive `GoError`: a value is
either a classified `*Errorx`, a wrapping error (as produced by
`fmt.Errorf` with `%w`: it carries its own message and unwraps to an
inner error), or any other plain error.  The response writer is modelled
by the ordered list of raw `WriteHeader` / body-write calls the handler
performs; `net/http` semantics (only the first `WriteHeader` takes
effect, a body write with no prior `WriteHeader` commits status 200) are
captured by the derived functions `effStatus` and `bodyChunks`.
-/

namespace errorsx

/-- Model of `errorsx.Errorx`: an HTTP status code, an internal flag and
a message, exactly the three fields of the Go struct. -/
structure Errorx where
  code : Int
  isInternal : Bool
  message : String
deriving DecidableEq, Repr

/-- Model of the method `(*Errorx).Error()`: returns the message. -/
def Errorx.Error (e : Errorx) : String := e.message

/-- Model of the method `(*Errorx).Internal()`: reports the internal flag. -/
def Errorx.Internal (e : Errorx) : Bool := e.isInternal

/-- Model of the method `(*Errorx).Code()`: returns the status code. -/
def Errorx.Code (e : Errorx) : Int := e.code

/-- Model of `errorsx.New(isInternal, code, message)`. -/
def New (isInternal : Bool) (code : Int) (message : String) : Errorx :=
  { code := code, isInternal := isInternal, message := message }

end errorsx

/-- Model of a Go `error` value as seen by this library: a classified
`*errorsx.Errorx`, a wrapping error (own message, unwraps to an inner
error, as built by `fmt.Errorf` with the wrap verb), or any other
(plain) error carrying only a message. -/
inductive GoError where
  | errx (e : errorsx.Errorx)
  | wrapped (msg : String) (inner : GoError)
  | plain (msg : String)
deriving DecidableEq, Repr

/-- Model of the `Error()` method of a `GoError` value. -/
def GoError.Error : GoError → String
  | .errx e => e.Error
  | .wrapped msg _ => msg
  | .plain msg => msg

/-- Model of `errors.Unwrap`: only wrapping errors unwrap. -/
def GoError.Unwrap : GoError → Option GoError
  | .wrapped _ inner => some inner
  | _ => none

/-- The wrap chain of an error: the error itself followed by the chain of
its wrapped cause, mirroring the walk `errors.As` performs via `Unwrap`. -/
def GoError.chain : GoError → List GoError
  | .wrapped msg inner => .wrapped msg inner :: inner.chain
  | e => [e]

/-- Whether a single (unwrapped) error value is a classified `*Errorx`,
returning it when so; this is the per-element test of `errors.As`. -/
def GoError.asClassified : GoError → Option errorsx.Errorx
  | .errx e => some e
  | _ => none

namespace errorsx

/-- Model of `errorsx.As(err)`: `errors.As(err, &rErr)` walks the wrap
chain, stopping at the first `*Errorx`; `some e` models the `(rErr, true)`
return and `none` models `(nil, false)`. -/
def As : GoError → Option Errorx
  | .errx e => some e
  | .wrapped _ inner => As inner
  | .plain _ => none

end errorsx

theorem goError_chain_ne_nil (err : GoError) : err.chain ≠ [] := by
  cases err <;> simp [GoError.chain]

theorem errorsx_As_eq_findSome (err : GoError) :
    errorsx.As err = err.chain.findSome? GoError.asClassified := by
  induction err with
  | errx e => simp [errorsx.As, GoError.chain, GoError.asClassified, List.findSome?]
  | wrapped msg inner ih =>
      simp [errorsx.As, GoError.chain, GoError.asClassified, List.findSome?, ih]
  | plain msg => simp [errorsx.As, GoError.chain, GoError.asClassified, List.findSome?]

/-- C7: `errorsx.As` walks the error's wrap chain and returns the first
classified `Errorx` found there (the `(e, true)` return), and returns
`(nil, false)` — modelled as `none` — exactly when no element of the
chain is a classified `Errorx`. -/
theorem claim_C7_As_walks_chain (err : GoError) :
    errorsx.As err = err.chain.findSome? GoError.asClassified ∧
      (errorsx.As err = none ↔ ∀ x ∈ err.chain, x.asClassified = none) := by
  refine ⟨errorsx_As_eq_findSome err, ?_⟩
  rw [errorsx_As_eq_findSome err]
  exact List.findSome?_eq_none_iff

namespace encoder

/-- Model of an `io.Writer` output sink: the model only needs sink
identity, so a sink is a tagged token. -/
inductive Sink where
  | mk (id : Nat)
deriving DecidableEq, Repr

/-- Outcome of calling a Go method that may dereference a nil pointer:
either the call panics on the nil receiver field, or it returns normally
with the method's `error` result. -/
inductive EncodeOutcome where
  | panicked
  | returned (e : Option GoError)
deriving DecidableEq, Repr

/-- Model of the struct `jsonEncoder`: its only field is the underlying
`*json.Encoder`, which is `nil` (`none`) unless the value was built by
`New`.  The underlying library encoder is represented by the sink it was
bound to. -/
structure jsonEncoder where
  encoder : Option Sink
deriving DecidableEq, Repr

/-- Model of the package-level singleton `var JsonEncoder Encoder =
&jsonEncoder\x7b\x7d`: the inner `*json.Encoder` is nil. -/
def JsonEncoder : jsonEncoder := { encoder := none }

/-- Model of `(*jsonEncoder).New(w)`: returns a fresh `jsonEncoder`
holding `json.NewEncoder(w)`, i.e. a library encoder bound to `w`. -/
def jsonEncoder.New (_d : jsonEncoder) (w : Sink) : jsonEncoder :=
  { encoder := some w }

/-- Model of `(*jsonEncoder).Encode(src)`: the method body is
`return d.encoder.Encode(src)`.  When the inner `*json.Encoder` is nil
the call dereferences a nil pointer and panics; otherwise it returns
whatever the library encoder returns.  The library's behaviour is not
reimplemented: it is abstracted as the argument `lib`, a function of the
bound sink and the value. -/
def jsonEncoder.Encode {α : Type} (lib : Sink → α → Option GoError)
    (d : jsonEncoder) (src : α) : EncodeOutcome :=
  match d.encoder with
  | none => .panicked
  | some w => .returned (lib w src)

/-- Model of the struct `xmlEncoder`: same shape as `jsonEncoder`, the
field holding the underlying `*xml.Encoder`. -/
structure xmlEncoder where
  encoder : Option Sink
deriving DecidableEq, Repr

/-- Model of the package-level singleton `var XmlEncoder Encoder =
&xmlEncoder\x7b\x7d`: the inner `*xml.Encoder` is nil. -/
def XmlEncoder : xmlEncoder := { encoder := none }

/-- Model of `(*xmlEncoder).New(w)`. -/
def xmlEncoder.New (_e : xmlEncoder) (w : Sink) : xmlEncoder :=
  { encoder := some w }

/-- Model of `(*xmlEncoder).Encode(src)`, exactly as for JSON. -/
def xmlEncoder.Encode {α : Type} (lib : Sink → α → Option GoError)
    (e : xmlEncoder) (src : α) : EncodeOutcome :=
  match e.encoder with
  | none => .panicked
  | some w => .returned (lib w src)

end encoder

/-- C10: calling `Encode` directly on the package-level `JsonEncoder` or
`XmlEncoder` singleton dereferences the nil inner encoder (panics),
whatever the value and whatever the library encoder would do; a receiver
produced by `New(w)` never hits the nil dereference — its `Encode`
returns normally with the library encoder's result on the bound sink. -/
theorem claim_C10_singleton_encode_nil_deref {α : Type}
    (lib : encoder.Sink → α → Option GoError) (src : α) :
    (encoder.JsonEncoder).Encode lib src = encoder.EncodeOutcome.panicked ∧
    (encoder.XmlEncoder).Encode lib src = encoder.EncodeOutcome.panicked ∧
    (∀ w : encoder.Sink,
      ((encoder.JsonEncoder).New w).Encode lib src =
        encoder.EncodeOutcome.returned (lib w src) ∧
      ((encoder.XmlEncoder).New w).Encode lib src =
        encoder.EncodeOutcome.returned (lib w src)) :=
  ⟨rfl, rfl, fun _ => ⟨rfl, rfl⟩⟩

/-- Model of a `*slog.Logger` value.  The handler never inspects the
logger's configuration and log records are tracked separately in
`HandleResult.logs`, so a logger is just a token: the default one built
by `slogx.New()` (JSON handler to stdout, info level) or a caller's
custom instance. -/
inductive Logger where
  | default
  | custom (id : Nat)
deriving DecidableEq, Repr

namespace slogx

/-- Model of `slogx.New()` as called by `applyOptions` (no options):
produces the default JSON-to-stdout logger. -/
def New : Logger := Logger.default

end slogx

namespace httpx

/-- One raw call on the `http.ResponseWriter`: a `WriteHeader(code)`
call or a body write of a string. -/
inductive WEvent where
  | writeHeader (code : Int)
  | write (body : String)
deriving DecidableEq, Repr

/-- The status the client sees, per `net/http` semantics: the first
`WriteHeader` wins and later calls are ignored as superfluous; a body
write with no prior `WriteHeader` commits status 200. -/
def effStatus : List WEvent → Option Int
  | [] => none
  | WEvent.writeHeader c :: _ => some c
  | WEvent.write _ :: _ => some 200

/-- The body chunks written, in order. -/
def bodyChunks (evs : List WEvent) : List String :=
  evs.filterMap fun ev =>
    match ev with
    | WEvent.write s => some s
    | _ => none

/-- The string `http.StatusText(http.StatusInternalServerError)`. -/
def statusText500 : String := "Internal Server Error"

/-- Model of `http.Error(w, msg, code)`: it calls `w.WriteHeader(code)`
and then writes `msg` followed by a newline (`fmt.Fprintln`). -/
def httpError (msg : String) (code : Int) : List WEvent :=
  [WEvent.writeHeader code, WEvent.write (msg ++ "\n")]

/-- The values `Handle` ever passes to `Encoder.Encode`: a
`DefaultResponse\x7bMessage: ...\x7d` error body (bind failure and
internal bind failure), a plain string (`errx.Error()` on validate and
business-logic failure), or the business response value. -/
inductive EncValue (Resp : Type) where
  | defaultResponse (message : String)
  | str (s : String)
  | resp (r : Resp)

/-- Behavioural model of `encoder.Encoder` as used by the handler: the
chain `h.encoder.New(w).Encode(v)` either succeeds, having written one
serialized chunk to `w`, or fails with a Go error having written
nothing.  (For the default `json.Encoder`, a marshalling failure writes
no bytes since marshalling precedes the write.) -/
abbrev Enc (Resp : Type) : Type := EncValue Resp → Except GoError String

/-- Hexadecimal digits of a byte, for `\u00XX` escapes. -/
def hexDigit (n : Nat) : Char := Nat.digitChar n

/-- JSON escaping of one character as `encoding/json` performs it with
its default HTML escaping (quote, backslash, the common control
characters, `<`, `>`, `&`; remaining control characters as `\u00XX`). -/
def jsonEscapeChar (c : Char) : String :=
  if c = '"' then "\\\""
  else if c = '\\' then "\\\\"
  else if c = '\n' then "\\n"
  else if c = '\r' then "\\r"
  else if c = '\t' then "\\t"
  else if c = '<' then "\\u003c"
  else if c = '>' then "\\u003e"
  else if c = '&' then "\\u0026"
  else if c.toNat < 32 then
    "\\u00" ++ String.singleton (hexDigit (c.toNat / 16)) ++
      String.singleton (hexDigit (c.toNat % 16))
  else String.singleton c

/-- JSON serialization of a Go string value. -/
def jsonQuote (s : String) : String :=
  "\"" ++ String.join (s.data.map jsonEscapeChar) ++ "\""

/-- JSON serialization of `DefaultResponse\x7bMessage: m\x7d`, whose
single field carries the tag `json:"message"`. -/
def jsonObjMessage (m : String) : String :=
  "\x7b\"message\":" ++ jsonQuote m ++ "\x7d"

/-- How `encoding/json` marshals a response value of type `α` (it may
fail, e.g. on unsupported types). -/
class JsonMarshal (α : Type) where
  marshal : α → Except GoError String

/-- The JSON `Encoder` on the values the handler encodes: the
`DefaultResponse` message wrapper and plain strings always marshal;
the response value marshals per its `JsonMarshal` model. -/
def jsonEnc {Resp : Type} [JsonMarshal Resp] : Enc Resp := fun v =>
  match v with
  | EncValue.defaultResponse m => Except.ok (jsonObjMessage m)
  | EncValue.str s => Except.ok (jsonQuote s)
  | EncValue.resp r => JsonMarshal.marshal r

/-- Model of the struct `handlerOptions`: Go's zero value has
`successCode = 0` and nil (`none`) encoder and logger. -/
structure handlerOptions (Resp : Type) where
  successCode : Int := 0
  encoder : Option (Enc Resp) := none
  logger : Option Logger := none

/-- Model of the `Option` mutators observable from outside the package:
only the three `With*` constructors can build one. -/
inductive HOption (Resp : Type) where
  | WithSuccessCode (code : Int)
  | WithEncoder (e : Enc Resp)
  | WithLogger (l : Logger)

/-- Applying one option function to the options record. -/
def HOption.apply {Resp : Type} : HOption Resp → handlerOptions Resp → handlerOptions Resp
  | HOption.WithSuccessCode c, h => { h with successCode := c }
  | HOption.WithEncoder e, h => { h with encoder := some e }
  | HOption.WithLogger l, h => { h with logger := some l }

/-- Model of `applyOptions`: start from the zero value, run every option
in order, then replace a non-positive success code by 200
(`http.StatusOK`), a nil encoder by `encoder.JsonEncoder` and a nil
logger by `slogx.New()`. -/
def applyOptions {Resp : Type} [JsonMarshal Resp]
    (options : List (HOption Resp)) : handlerOptions Resp :=
  let h := options.foldl (fun acc o => o.apply acc) {}
  let h := if h.successCode ≤ 0 then { h with successCode := 200 } else h
  let h := if h.encoder.isNone then { h with encoder := some jsonEnc } else h
  if h.logger.isNone then { h with logger := some slogx.New } else h

/-- The behaviour of one inbound request through the typed request's
capabilities: the outcome of `_req.Bind(r)` on the zero value (the bound
request, or the returned error) and the outcome of `Validate` on the
bound request (`none` models a nil error). -/
structure RequestBehavior (Req : Type) where
  bind : Except GoError Req
  validate : Req → Option GoError

/-- What one handler invocation produced: the raw response-writer calls
in order, and the adapter's own log records (tracked as their static
message strings, under the per-request correlation group). -/
structure HandleResult where
  events : List WEvent
  logs : List String
deriving DecidableEq, Repr

/-- The shared internal/unclassified bind-failure tail of `Handle`:
write header 500, encode a `DefaultResponse` carrying the generic status
text; if that encoding fails, log and fall back to `http.Error`. -/
def bindInternalFailure {Resp : Type} (enc : Enc Resp) : HandleResult :=
  match enc (EncValue.defaultResponse statusText500) with
  | Except.ok s => ⟨[WEvent.writeHeader 500, WEvent.write s], []⟩
  | Except.error _ =>
      ⟨WEvent.writeHeader 500 :: httpError statusText500 500,
        ["failed to write error response"]⟩

/-- The bind-failure branch of `Handle`: on a classified external error,
log, write the error's code and encode `DefaultResponse\x7bMessage:
err.Error()\x7d` (falling back to `http.Error` on encode failure);
otherwise take the internal tail. -/
def bindFailure {Resp : Type} (enc : Enc Resp) (err : GoError) : HandleResult :=
  match errorsx.As err with
  | some errx =>
      if errx.Internal then bindInternalFailure enc
      else
        match enc (EncValue.defaultResponse err.Error) with
        | Except.ok s =>
            ⟨[WEvent.writeHeader errx.Code, WEvent.write s],
              ["failed to bind request"]⟩
        | Except.error _ =>
            ⟨WEvent.writeHeader errx.Code :: httpError statusText500 500,
              ["failed to bind request", "failed to write error response"]⟩
  | none => bindInternalFailure enc

/-- The body of the closure `Handle` returns, for one inbound request,
after the options have been resolved to a success code and an encoder
(the logger only produces the tracked log records).  It mirrors the Go
control flow literally: bind, log the request, validate, invoke the use
case, log the response, write the success header and encode the
response, each failure exit classifying its error with `errorsx.As`. -/
def handleWith {Req Resp : Type} (successCode : Int) (enc : Enc Resp)
    (useCase : Req → Except GoError Resp) (rb : RequestBehavior Req) :
    HandleResult :=
  match rb.bind with
  | Except.error err => bindFailure enc err
  | Except.ok req =>
    match rb.validate req with
    | some err =>
        match errorsx.As err with
        | some errx =>
            if errx.Internal then ⟨httpError statusText500 500, ["request"]⟩
            else
              match enc (EncValue.str errx.Error) with
              | Except.ok s =>
                  ⟨[WEvent.writeHeader errx.Code, WEvent.write s],
                    ["request", "failed to validate request"]⟩
              | Except.error _ =>
                  ⟨WEvent.writeHeader errx.Code :: httpError statusText500 500,
                    ["request", "failed to validate request",
                      "failed to write error response"]⟩
        | none => ⟨httpError statusText500 500, ["request"]⟩
    | none =>
      match useCase req with
      | Except.error err =>
          match errorsx.As err with
          | some errx =>
              if errx.Internal then ⟨httpError statusText500 500, ["request"]⟩
              else
                match enc (EncValue.str errx.Error) with
                | Except.ok s =>
                    ⟨[WEvent.writeHeader errx.Code, WEvent.write s], ["request"]⟩
                | Except.error _ =>
                    ⟨WEvent.writeHeader errx.Code :: httpError statusText500 500,
                      ["request"]⟩
          | none => ⟨httpError statusText500 500, ["request"]⟩
      | Except.ok response =>
          match enc (EncValue.resp response) with
          | Except.ok s =>
              ⟨[WEvent.writeHeader successCode, WEvent.write s],
                ["request", "response"]⟩
          | Except.error err2 =>
              match errorsx.As err2 with
              | some errx =>
                  if errx.Internal then
                    ⟨WEvent.writeHeader successCode :: httpError statusText500 500,
                      ["request", "response"]⟩
                  else
                    ⟨WEvent.writeHeader successCode :: httpError errx.Error errx.Code,
                      ["request", "response"]⟩
              | none =>
                  ⟨WEvent.writeHeader successCode :: httpError statusText500 500,
                    ["request", "response"]⟩

/-- Model of `httpx.Handle` at one inbound request: resolve the options,
then run the handler body with the resolved success code and encoder.
(`applyOptions` always yields `some` encoder, so the `getD` default is
never consulted.) -/
def Handle {Req Resp : Type} [JsonMarshal Resp]
    (useCase : Req → Except GoError Resp) (options : List (HOption Resp))
    (rb : RequestBehavior Req) : HandleResult :=
  let h := applyOptions options
  handleWith h.successCode (h.encoder.getD jsonEnc) useCase rb

/-- Model of `httpx.DefaultRequest`, the empty request struct. -/
structure DefaultRequest where
deriving DecidableEq, Repr

/-- The request behaviour of `DefaultRequest`: its `Bind` and `Validate`
methods both return nil. -/
def defaultRequestBehavior : RequestBehavior DefaultRequest :=
  ⟨Except.ok {}, fun _ => none⟩

/-- Model of `httpx.DefaultResponse`, a struct with one string field
`Message`, JSON-tagged `message`. -/
structure DefaultResponse where
  Message : String
deriving DecidableEq, Repr

instance : JsonMarshal DefaultResponse :=
  ⟨fun r => Except.ok (jsonObjMessage r.Message)⟩

end httpx

namespace health

/-- Model of `(*useCase).Health(ctx, request)`: logs "Health check" (a
use-case-internal record, outside the adapter's) and returns
`(DefaultResponse\x7bMessage: "OK"\x7d, nil)`. -/
def Health (_ctx : Unit) (_request : httpx.DefaultRequest) :
    Except GoError httpx.DefaultResponse :=
  Except.ok { Message := "OK" }

end health

namespace httpx

theorem handleWith_one_response {Req Resp : Type} (sc : Int) (enc : Enc Resp)
    (uc : Req → Except GoError Resp) (rb : RequestBehavior Req) :
    (bodyChunks (handleWith sc enc uc rb).events).length = 1 ∧
      (effStatus (handleWith sc enc uc rb).events).isSome = true := by
  unfold handleWith bindFailure bindInternalFailure
  repeat' split
  all_goals simp [bodyChunks, effStatus, httpError]

end httpx

/-- C1: for every handler produced by `Handle` — any use case, any
options, any request behaviour, any encoder outcome at any step —
exactly one response reaches the client: exactly one body chunk is
written and a status is committed (the first `WriteHeader`; `net/http`
discards the later call that the plain-text fallback paths make), so
there is never no response and never both a success and an error
encoding. -/
theorem claim_C1_exactly_one_response {Req Resp : Type} [httpx.JsonMarshal Resp]
    (uc : Req → Except GoError Resp) (opts : List (httpx.HOption Resp))
    (rb : httpx.RequestBehavior Req) :
    (httpx.bodyChunks (httpx.Handle uc opts rb).events).length = 1 ∧
      (httpx.effStatus (httpx.Handle uc opts rb).events).isSome = true :=
  httpx.handleWith_one_response _ _ uc rb

namespace httpx

theorem HOption.apply_apply_self {Resp : Type} (o : HOption Resp) (h : handlerOptions Resp) :
    o.apply (o.apply h) = o.apply h := by
  cases o <;> rfl

theorem applyOptions_append_dup {Resp : Type} [JsonMarshal Resp]
    (opts : List (HOption Resp)) (o : HOption Resp) :
    applyOptions (opts ++ [o, o]) = applyOptions (opts ++ [o]) := by
  unfold applyOptions
  rw [List.foldl_append, List.foldl_append]
  simp only [List.foldl_cons, List.foldl_nil]
  rw [HOption.apply_apply_self]

theorem applyOptions_override {Resp : Type} [JsonMarshal Resp]
    (opts opts2 : List (HOption Resp)) (o1 o2 : HOption Resp)
    (hov : ∀ h, o2.apply (o1.apply h) = o2.apply h) :
    applyOptions (opts ++ o1 :: o2 :: opts2) = applyOptions (opts ++ o2 :: opts2) := by
  unfold applyOptions
  rw [List.foldl_append, List.foldl_append]
  simp only [List.foldl_cons]
  rw [hov]

theorem applyOptions_successCode {Resp : Type} [JsonMarshal Resp]
    (opts : List (HOption Resp)) :
    (applyOptions opts).successCode =
      (if (List.foldl (fun acc o => HOption.apply o acc)
            ({} : handlerOptions Resp) opts).successCode ≤ 0 then 200
       else (List.foldl (fun acc o => HOption.apply o acc)
            ({} : handlerOptions Resp) opts).successCode) := by
  simp only [applyOptions]
  repeat' split
  all_goals rfl

end httpx

/-- C6: option application is last-write-wins over the ordered option
list: a doubled trailing option yields the same effective configuration
as the option once, and for two settings of the same field (success
code, encoder, or logger) anywhere in the list, the later one prevails
and the earlier is immaterial. -/
theorem claim_C6_options_last_write_wins {Resp : Type} [httpx.JsonMarshal Resp]
    (opts opts2 : List (httpx.HOption Resp)) (o : httpx.HOption Resp) :
    httpx.applyOptions (opts ++ [o, o]) = httpx.applyOptions (opts ++ [o]) ∧
    (∀ c1 c2 : Int,
      httpx.applyOptions
          (opts ++ httpx.HOption.WithSuccessCode c1 :: httpx.HOption.WithSuccessCode c2 :: opts2) =
        httpx.applyOptions (opts ++ httpx.HOption.WithSuccessCode c2 :: opts2)) ∧
    (∀ e1 e2 : httpx.Enc Resp,
      httpx.applyOptions
          (opts ++ httpx.HOption.WithEncoder e1 :: httpx.HOption.WithEncoder e2 :: opts2) =
        httpx.applyOptions (opts ++ httpx.HOption.WithEncoder e2 :: opts2)) ∧
    (∀ l1 l2 : Logger,
      httpx.applyOptions
          (opts ++ httpx.HOption.WithLogger l1 :: httpx.HOption.WithLogger l2 :: opts2) =
        httpx.applyOptions (opts ++ httpx.HOption.WithLogger l2 :: opts2)) :=
  ⟨httpx.applyOptions_append_dup opts o,
    fun _ _ => httpx.applyOptions_override opts opts2 _ _ (fun _ => rfl),
    fun _ _ => httpx.applyOptions_override opts opts2 _ _ (fun _ => rfl),
    fun _ _ => httpx.applyOptions_override opts opts2 _ _ (fun _ => rfl)⟩

/-- C9: the effective success code after `applyOptions` is strictly
positive for every option list, and a trailing `WithSuccessCode` with a
non-positive code is silently replaced by 200. -/
theorem claim_C9_success_code_positive {Resp : Type} [httpx.JsonMarshal Resp]
    (opts : List (httpx.HOption Resp)) :
    0 < (httpx.applyOptions opts).successCode ∧
    ∀ c : Int, c ≤ 0 →
      (httpx.applyOptions (opts ++ [httpx.HOption.WithSuccessCode c])).successCode = 200 := by
  constructor
  · rw [httpx.applyOptions_successCode]
    split
    · norm_num
    · omega
  · intro c hc
    rw [httpx.applyOptions_successCode, List.foldl_append]
    simp only [List.foldl_cons, List.foldl_nil]
    simp [httpx.HOption.apply, hc]

/-- Witness for C9 at the empty option list and the non-positive code 0:
the default success code is positive and a trailing `WithSuccessCode 0`
still configures 200. -/
theorem claim_C9_success_code_positive_witness :
    0 < (httpx.applyOptions ([] : List (httpx.HOption httpx.DefaultResponse))).successCode ∧
    (httpx.applyOptions
        ([] ++ ([httpx.HOption.WithSuccessCode 0] :
          List (httpx.HOption httpx.DefaultResponse)))).successCode = 200 :=
  ⟨(claim_C9_success_code_positive []).1,
    (claim_C9_success_code_positive []).2 0 (by norm_num)⟩

/-- C5: when bind, validate and the business-logic function all succeed
and the configured encoder serializes the returned response to `s`, the
handler writes the configured success code as status and `s` as the
body; with no `WithSuccessCode` option the configured success code is
200. -/
theorem claim_C5_success_path {Req Resp : Type} [httpx.JsonMarshal Resp]
    (uc : Req → Except GoError Resp) (opts : List (httpx.HOption Resp))
    (r : Req) (resp : Resp) (s : String)
    (h1 : uc r = Except.ok resp)
    (h2 : ((httpx.applyOptions opts).encoder.getD httpx.jsonEnc)
        (httpx.EncValue.resp resp) = Except.ok s) :
    (httpx.Handle uc opts ⟨Except.ok r, fun _ => none⟩).events =
      [httpx.WEvent.writeHeader (httpx.applyOptions opts).successCode,
        httpx.WEvent.write s] ∧
    (httpx.applyOptions ([] : List (httpx.HOption Resp))).successCode = 200 := by
  constructor
  · simp only [httpx.Handle, httpx.handleWith, h1, h2]
  · rfl

/-- Witness for C5: the health-style success run with default options
writes status 200 (the default success code) and the JSON body of the
returned response. -/
theorem claim_C5_success_path_witness :
    (httpx.Handle (fun _ : httpx.DefaultRequest => Except.ok (httpx.DefaultResponse.mk "OK")) []
        (⟨Except.ok httpx.DefaultRequest.mk, fun _ => none⟩ :
          httpx.RequestBehavior httpx.DefaultRequest)).events =
      [httpx.WEvent.writeHeader
          (httpx.applyOptions ([] : List (httpx.HOption httpx.DefaultResponse))).successCode,
        httpx.WEvent.write (httpx.jsonObjMessage "OK")] ∧
    (httpx.applyOptions ([] : List (httpx.HOption httpx.DefaultResponse))).successCode = 200 :=
  claim_C5_success_path _ [] httpx.DefaultRequest.mk (httpx.DefaultResponse.mk "OK") _ rfl rfl

/-- C8: the health use case returns `(DefaultResponse\x7bMessage:
"OK"\x7d, nil)` for every context and request, and a handler wrapping
it with default options responds with status 200 and body
`\x7b"message":"OK"\x7d`. -/
theorem claim_C8_health_ok :
    (∀ (ctx : Unit) (req : httpx.DefaultRequest),
      health.Health ctx req = Except.ok { Message := "OK" }) ∧
    httpx.Handle (health.Health ()) [] httpx.defaultRequestBehavior =
      ⟨[httpx.WEvent.writeHeader 200, httpx.WEvent.write "\x7b\"message\":\"OK\"\x7d"],
        ["request", "response"]⟩ :=
  ⟨fun _ _ => rfl, by decide⟩
/-- An error is hidden from the client when it is classified-internal or
unclassified: `errorsx.As` finds no `Errorx`, or finds one whose
`Internal()` is true. -/
def hiddenError (e : GoError) : Bool :=
  match errorsx.As e with
  | some errx => errx.Internal
  | none => true

namespace httpx

theorem bindFailure_hidden {Resp : Type} (enc : Enc Resp) (e : GoError)
    (h : hiddenError e = true) : bindFailure enc e = bindInternalFailure enc := by
  unfold bindFailure
  split
  next errx heq =>
    have h2 : errx.Internal = true := by
      unfold hiddenError at h
      rw [heq] at h
      exact h
    simp [h2]
  next => rfl

theorem effStatus_bindInternalFailure {Resp : Type} (enc : Enc Resp) :
    effStatus (bindInternalFailure enc).events = some 500 := by
  unfold bindInternalFailure
  split <;> rfl

theorem handleWith_validate_hidden {Req Resp : Type} (sc : Int) (enc : Enc Resp)
    (uc : Req → Except GoError Resp) (r : Req) (e : GoError)
    (h : hiddenError e = true) :
    handleWith sc enc uc ⟨Except.ok r, fun _ => some e⟩ =
      ⟨httpError statusText500 500, ["request"]⟩ := by
  rcases hA : errorsx.As e with _ | errx
  · simp [handleWith, hA]
  · have hint : errx.Internal = true := by
      unfold hiddenError at h
      rw [hA] at h
      exact h
    simp [handleWith, hA, hint]

theorem handleWith_usecase_hidden {Req Resp : Type} (sc : Int) (enc : Enc Resp)
    (r : Req) (e : GoError) (h : hiddenError e = true) :
    handleWith sc enc (fun _ => Except.error e) ⟨Except.ok r, fun _ => none⟩ =
      ⟨httpError statusText500 500, ["request"]⟩ := by
  rcases hA : errorsx.As e with _ | errx
  · simp [handleWith, hA]
  · have hint : errx.Internal = true := by
      unfold hiddenError at h
      rw [hA] at h
      exact h
    simp [handleWith, hA, hint]

theorem handleWith_encode_hidden {Req Resp : Type} (sc : Int) (enc : Enc Resp)
    (r : Req) (resp : Resp) (e : GoError)
    (hEnc : enc (EncValue.resp resp) = Except.error e)
    (h : hiddenError e = true) :
    handleWith sc enc (fun _ => Except.ok resp) ⟨Except.ok r, fun _ => none⟩ =
      ⟨WEvent.writeHeader sc :: httpError statusText500 500, ["request", "response"]⟩ := by
  rcases hA : errorsx.As e with _ | errx
  · simp [handleWith, hEnc, hA]
  · have hint : errx.Internal = true := by
      unfold hiddenError at h
      rw [hA] at h
      exact h
    simp [handleWith, hEnc, hA, hint]

end httpx

/-- C2 (amended): for every classified-internal or unclassified error,
the client-visible output is independent of the error's content at every
stage; at the bind, validate and business-logic stages the written
status is 500 with a generic body; at the response-encoding stage the
handler issues its plain-text 500 error write but the already-committed
success status prevails, so the client-visible status is the configured
success code while the body is still the generic status text. -/
theorem claim_C2_hidden_errors_amended {Req Resp : Type} (sc : Int)
    (enc : httpx.Enc Resp) (uc : Req → Except GoError Resp)
    (v : Req → Option GoError) (r : Req) (resp : Resp) :
    (∀ e1 e2 : GoError, hiddenError e1 = true → hiddenError e2 = true →
      httpx.handleWith sc enc uc ⟨Except.error e1, v⟩ = httpx.bindInternalFailure enc ∧
      httpx.handleWith sc enc uc ⟨Except.error e1, v⟩ =
        httpx.handleWith sc enc uc ⟨Except.error e2, v⟩ ∧
      httpx.effStatus (httpx.handleWith sc enc uc ⟨Except.error e1, v⟩).events = some 500) ∧
    (∀ e1 e2 : GoError, hiddenError e1 = true → hiddenError e2 = true →
      httpx.handleWith sc enc uc ⟨Except.ok r, fun _ => some e1⟩ =
        ⟨httpx.httpError httpx.statusText500 500, ["request"]⟩ ∧
      httpx.handleWith sc enc uc ⟨Except.ok r, fun _ => some e1⟩ =
        httpx.handleWith sc enc uc ⟨Except.ok r, fun _ => some e2⟩ ∧
      httpx.effStatus (httpx.handleWith sc enc uc ⟨Except.ok r, fun _ => some e1⟩).events =
        some 500) ∧
    (∀ e1 e2 : GoError, hiddenError e1 = true → hiddenError e2 = true →
      httpx.handleWith sc enc (fun _ => Except.error e1) ⟨Except.ok r, fun _ => none⟩ =
        ⟨httpx.httpError httpx.statusText500 500, ["request"]⟩ ∧
      httpx.handleWith sc enc (fun _ => Except.error e1) ⟨Except.ok r, fun _ => none⟩ =
        httpx.handleWith sc enc (fun _ => Except.error e2) ⟨Except.ok r, fun _ => none⟩ ∧
      httpx.effStatus
          (httpx.handleWith sc enc (fun _ => Except.error e1)
            ⟨Except.ok r, fun _ => none⟩).events = some 500) ∧
    (∀ (e1 e2 : GoError) (enc1 enc2 : httpx.Enc Resp),
      hiddenError e1 = true → hiddenError e2 = true →
      enc1 (httpx.EncValue.resp resp) = Except.error e1 →
      enc2 (httpx.EncValue.resp resp) = Except.error e2 →
      httpx.handleWith sc enc1 (fun _ => Except.ok resp) ⟨Except.ok r, fun _ => none⟩ =
        ⟨httpx.WEvent.writeHeader sc :: httpx.httpError httpx.statusText500 500,
          ["request", "response"]⟩ ∧
      httpx.handleWith sc enc1 (fun _ => Except.ok resp) ⟨Except.ok r, fun _ => none⟩ =
        httpx.handleWith sc enc2 (fun _ => Except.ok resp) ⟨Except.ok r, fun _ => none⟩ ∧
      httpx.effStatus
          (httpx.handleWith sc enc1 (fun _ => Except.ok resp)
            ⟨Except.ok r, fun _ => none⟩).events = some sc) := by
  refine ⟨?_, ?_, ?_, ?_⟩
  · intro e1 e2 h1 h2
    have r1 : httpx.handleWith sc enc uc ⟨Except.error e1, v⟩ =
        httpx.bindInternalFailure enc := by
      show httpx.bindFailure enc e1 = httpx.bindInternalFailure enc
      exact httpx.bindFailure_hidden enc e1 h1
    have r2 : httpx.handleWith sc enc uc ⟨Except.error e2, v⟩ =
        httpx.bindInternalFailure enc := by
      show httpx.bindFailure enc e2 = httpx.bindInternalFailure enc
      exact httpx.bindFailure_hidden enc e2 h2
    refine ⟨r1, r1.trans r2.symm, ?_⟩
    rw [r1]
    exact httpx.effStatus_bindInternalFailure enc
  · intro e1 e2 h1 h2
    have r1 := httpx.handleWith_validate_hidden sc enc uc r e1 h1
    have r2 := httpx.handleWith_validate_hidden sc enc uc r e2 h2
    exact ⟨r1, r1.trans r2.symm, by rw [r1]; rfl⟩
  · intro e1 e2 h1 h2
    have r1 := httpx.handleWith_usecase_hidden sc enc r e1 h1
    have r2 := httpx.handleWith_usecase_hidden sc enc r e2 h2
    exact ⟨r1, r1.trans r2.symm, by rw [r1]; rfl⟩
  · intro e1 e2 enc1 enc2 h1 h2 hE1 hE2
    have r1 := httpx.handleWith_encode_hidden sc enc1 r resp e1 hE1 h1
    have r2 := httpx.handleWith_encode_hidden sc enc2 r resp e2 hE2 h2
    exact ⟨r1, r1.trans r2.symm, by rw [r1]; rfl⟩

/-- An encoder whose sink always fails: every `Encode` call returns an
unclassified I/O error having written nothing. -/
def failingEncoder : httpx.Enc httpx.DefaultResponse :=
  fun _ => Except.error (GoError.plain "sink closed")

/-- The run refuting C2 as stated: bind, validate and the business logic
succeed, the encoder fails on the response with an unclassified error. -/
def c2Run : httpx.HandleResult :=
  httpx.Handle (fun _ : httpx.DefaultRequest => Except.ok (httpx.DefaultResponse.mk "hi"))
    [httpx.HOption.WithEncoder failingEncoder] httpx.defaultRequestBehavior

/-- Counterexample to C2 as stated: when the unclassified error arises
at the response-encoding stage, the client-visible status is the
already-committed success code 200, not 500. -/
theorem claim_C2_counterexample :
    hiddenError (GoError.plain "sink closed") = true ∧
    httpx.effStatus c2Run.events = some 200 ∧
    ¬ httpx.effStatus c2Run.events = some 500 := by decide

/-- A second failing encoder, failing with a classified-internal error. -/
def failingEncoderInternal : httpx.Enc httpx.DefaultResponse :=
  fun _ => Except.error (GoError.errx (errorsx.New true 500 "oops"))

/-- Witness for the amended C2: at concrete hidden errors, a bind-stage
unclassified failure and a bind-stage classified-internal failure
produce identical 500 responses, and two encode-stage failures (one
unclassified, one classified-internal) produce identical responses
whose client-visible status is the success code 200. -/
theorem claim_C2_hidden_errors_amended_witness :
    (httpx.handleWith 200 (httpx.jsonEnc : httpx.Enc httpx.DefaultResponse)
        (fun _ : httpx.DefaultRequest => Except.ok (httpx.DefaultResponse.mk "hi"))
        ⟨Except.error (GoError.plain "pq: connection refused"), fun _ => none⟩ =
      httpx.bindInternalFailure (httpx.jsonEnc : httpx.Enc httpx.DefaultResponse) ∧
      httpx.handleWith 200 (httpx.jsonEnc : httpx.Enc httpx.DefaultResponse)
          (fun _ : httpx.DefaultRequest => Except.ok (httpx.DefaultResponse.mk "hi"))
          ⟨Except.error (GoError.plain "pq: connection refused"), fun _ => none⟩ =
        httpx.handleWith 200 (httpx.jsonEnc : httpx.Enc httpx.DefaultResponse)
          (fun _ : httpx.DefaultRequest => Except.ok (httpx.DefaultResponse.mk "hi"))
          ⟨Except.error (GoError.errx (errorsx.New true 503 "db down")), fun _ => none⟩ ∧
      httpx.effStatus
          (httpx.handleWith 200 (httpx.jsonEnc : httpx.Enc httpx.DefaultResponse)
            (fun _ : httpx.DefaultRequest => Except.ok (httpx.DefaultResponse.mk "hi"))
            ⟨Except.error (GoError.plain "pq: connection refused"), fun _ => none⟩).events =
        some 500) ∧
    (httpx.handleWith 200 failingEncoder
        (fun _ => Except.ok (httpx.DefaultResponse.mk "hi"))
        ⟨Except.ok httpx.DefaultRequest.mk, fun _ => none⟩ =
      ⟨httpx.WEvent.writeHeader 200 :: httpx.httpError httpx.statusText500 500,
        ["request", "response"]⟩ ∧
      httpx.handleWith 200 failingEncoder
          (fun _ => Except.ok (httpx.DefaultResponse.mk "hi"))
          ⟨Except.ok httpx.DefaultRequest.mk, fun _ => none⟩ =
        httpx.handleWith 200 failingEncoderInternal
          (fun _ => Except.ok (httpx.DefaultResponse.mk "hi"))
          ⟨Except.ok httpx.DefaultRequest.mk, fun _ => none⟩ ∧
      httpx.effStatus
          (httpx.handleWith 200 failingEncoder
            (fun _ => Except.ok (httpx.DefaultResponse.mk "hi"))
            ⟨Except.ok httpx.DefaultRequest.mk, fun _ => none⟩).events = some 200) :=
  ⟨(claim_C2_hidden_errors_amended 200 (httpx.jsonEnc : httpx.Enc httpx.DefaultResponse)
      (fun _ : httpx.DefaultRequest => Except.ok (httpx.DefaultResponse.mk "hi"))
      (fun _ => none) httpx.DefaultRequest.mk (httpx.DefaultResponse.mk "hi")).1
      (GoError.plain "pq: connection refused")
      (GoError.errx (errorsx.New true 503 "db down")) rfl rfl,
    (claim_C2_hidden_errors_amended 200 (httpx.jsonEnc : httpx.Enc httpx.DefaultResponse)
      (fun _ : httpx.DefaultRequest => Except.ok (httpx.DefaultResponse.mk "hi"))
      (fun _ => none) httpx.DefaultRequest.mk (httpx.DefaultResponse.mk "hi")).2.2.2
      (GoError.plain "sink closed") (GoError.errx (errorsx.New true 500 "oops"))
      failingEncoder failingEncoderInternal rfl rfl rfl rfl⟩
/-- C3: a bind failure whose chain holds a classified-external `Errorx`
makes the handler write that error's status code with a body that is the
JSON serialization of `\x7b"message": <error text>\x7d` (under the
default encoder); and when encoding that error body itself fails, the
failure is logged ("failed to write error response") and the handler
performs the plain-text 500 fallback write (`http.Error` with the
generic status text). -/
theorem claim_C3_bind_external {Req Resp : Type} [httpx.JsonMarshal Resp]
    (uc : Req → Except GoError Resp) (v : Req → Option GoError)
    (err : GoError) (errx : errorsx.Errorx)
    (hA : errorsx.As err = some errx) (hExt : errx.Internal = false) :
    httpx.Handle uc [] ⟨Except.error err, v⟩ =
      ⟨[httpx.WEvent.writeHeader errx.Code,
        httpx.WEvent.write (httpx.jsonObjMessage err.Error)],
        ["failed to bind request"]⟩ ∧
    (∀ (sc : Int) (enc : httpx.Enc Resp) (e2 : GoError),
      enc (httpx.EncValue.defaultResponse err.Error) = Except.error e2 →
      httpx.handleWith sc enc uc ⟨Except.error err, v⟩ =
        ⟨[httpx.WEvent.writeHeader errx.Code, httpx.WEvent.writeHeader 500,
          httpx.WEvent.write (httpx.statusText500 ++ "\n")],
          ["failed to bind request", "failed to write error response"]⟩) := by
  constructor
  · show httpx.bindFailure httpx.jsonEnc err = _
    unfold httpx.bindFailure
    rw [hA]
    simp [hExt, httpx.jsonEnc]
  · intro sc enc e2 hEnc
    show httpx.bindFailure enc err = _
    unfold httpx.bindFailure
    rw [hA]
    simp [hExt, hEnc, httpx.httpError]

/-- Witness for C3: a wrapped 404 external bind error yields status 404
and body `\x7b"message":"bind: nope"\x7d`; with an always-failing
encoder the same bind error yields the logged plain-text 500 fallback. -/
theorem claim_C3_bind_external_witness :
    httpx.Handle (fun _ : httpx.DefaultRequest => Except.ok (httpx.DefaultResponse.mk "x")) []
        ⟨Except.error (GoError.wrapped "bind: nope"
          (GoError.errx (errorsx.New false 404 "nope"))), fun _ => none⟩ =
      ⟨[httpx.WEvent.writeHeader 404,
        httpx.WEvent.write (httpx.jsonObjMessage "bind: nope")],
        ["failed to bind request"]⟩ ∧
    httpx.handleWith 200 failingEncoder
        (fun _ : httpx.DefaultRequest => Except.ok (httpx.DefaultResponse.mk "x"))
        ⟨Except.error (GoError.wrapped "bind: nope"
          (GoError.errx (errorsx.New false 404 "nope"))), fun _ => none⟩ =
      ⟨[httpx.WEvent.writeHeader 404, httpx.WEvent.writeHeader 500,
        httpx.WEvent.write (httpx.statusText500 ++ "\n")],
        ["failed to bind request", "failed to write error response"]⟩ :=
  ⟨(claim_C3_bind_external (fun _ : httpx.DefaultRequest => Except.ok (httpx.DefaultResponse.mk "x"))
      (fun _ => none)
      (GoError.wrapped "bind: nope" (GoError.errx (errorsx.New false 404 "nope")))
      (errorsx.New false 404 "nope") rfl rfl).1,
    (claim_C3_bind_external (fun _ : httpx.DefaultRequest => Except.ok (httpx.DefaultResponse.mk "x"))
      (fun _ => none)
      (GoError.wrapped "bind: nope" (GoError.errx (errorsx.New false 404 "nope")))
      (errorsx.New false 404 "nope") rfl rfl).2 200 failingEncoder
      (GoError.plain "sink closed") rfl⟩

/-- The run refuting C4 as stated. -/
def c4Run : httpx.HandleResult :=
  httpx.Handle (fun _ : httpx.DefaultRequest => Except.ok (httpx.DefaultResponse.mk "hi")) []
    ⟨Except.ok httpx.DefaultRequest.mk,
      fun _ => some (GoError.errx (errorsx.New false 400 "boom"))⟩

/-- Counterexample to C4 as stated: a validate failure with the
classified-external error `New(false, 400, "boom")` under the default
JSON encoder produces the body `"boom"` — the JSON serialization of the
message string — which is neither the `\x7b\x7d`-like encoding of the
raw error value that the claim describes, nor a message-object
wrapper. -/
theorem claim_C4_counterexample :
    c4Run.events = [httpx.WEvent.writeHeader 400, httpx.WEvent.write "\"boom\""] ∧
    "\"boom\"" ≠ "\x7b\x7d" ∧
    "\"boom\"" ≠ httpx.jsonObjMessage "boom" := by decide

/-- C4 (amended): for every validate or business-logic failure whose
chain holds a classified-external `Errorx`, the handler writes that
error's status code, and the body is the configured encoder's
serialization of the error's message string `errx.Error()` (for the JSON
encoder, a quoted JSON string) — not the raw error value and not a
`\x7b"message": ...\x7d` wrapper. -/
theorem claim_C4_amended {Req Resp : Type} (sc : Int)
    (enc : httpx.Enc Resp) (uc : Req → Except GoError Resp) (r : Req)
    (err : GoError) (errx : errorsx.Errorx) (s : String)
    (hA : errorsx.As err = some errx) (hExt : errx.Internal = false)
    (hEnc : enc (httpx.EncValue.str errx.Error) = Except.ok s) :
    (httpx.handleWith sc enc uc ⟨Except.ok r, fun _ => some err⟩).events =
      [httpx.WEvent.writeHeader errx.Code, httpx.WEvent.write s] ∧
    (httpx.handleWith sc enc (fun _ => Except.error err)
        ⟨Except.ok r, fun _ => none⟩).events =
      [httpx.WEvent.writeHeader errx.Code, httpx.WEvent.write s] := by
  constructor <;> simp [httpx.handleWith, hA, hExt, hEnc]

/-- Witness for C4 (amended) at the 400 "boom" error for both the
validate and the business-logic stage under the JSON encoder. -/
theorem claim_C4_amended_witness :
    (httpx.handleWith 200 (httpx.jsonEnc : httpx.Enc httpx.DefaultResponse)
        (fun _ : httpx.DefaultRequest => Except.ok (httpx.DefaultResponse.mk "hi"))
        ⟨Except.ok httpx.DefaultRequest.mk,
          fun _ => some (GoError.errx (errorsx.New false 400 "boom"))⟩).events =
      [httpx.WEvent.writeHeader 400, httpx.WEvent.write (httpx.jsonQuote "boom")] ∧
    (httpx.handleWith 200 (httpx.jsonEnc : httpx.Enc httpx.DefaultResponse)
        (fun _ : httpx.DefaultRequest =>
          Except.error (GoError.errx (errorsx.New false 400 "boom")))
        ⟨Except.ok httpx.DefaultRequest.mk, fun _ => none⟩).events =
      [httpx.WEvent.writeHeader 400, httpx.WEvent.write (httpx.jsonQuote "boom")] :=
  claim_C4_amended 200 (httpx.jsonEnc : httpx.Enc httpx.DefaultResponse)
    (fun _ : httpx.DefaultRequest => Except.ok (httpx.DefaultResponse.mk "hi"))
    httpx.DefaultRequest.mk (GoError.errx (errorsx.New false 400 "boom"))
    (errorsx.New false 400 "boom") (httpx.jsonQuote "boom") rfl rfl rfl
